import Mathlib

/-!
Verification of the AI-recipe-generator backend against its design
specification.  The JavaScript sources are shallowly embedded as Lean
definitions: pure functions become Lean functions, the Supabase-backed
usage store becomes an explicit list of rows with a step relation, and
fallible database calls return `Except`.  Strings are modelled as Lean
strings (sequences of Unicode scalar values); all the string data handled
by the embedded code is ASCII or Korean text, on which JavaScript's
UTF-16 operations coincide with the scalar-value view.
-/

/-! ## JavaScript string primitives

`jsIncludes hay needle` models `hay.includes(needle)`, `jsToLower` models
`String.prototype.toLowerCase` (the embedded code only lowercases ASCII
letters and Korean text, on which only the ASCII mapping acts), and
`firstWord` models `s.split(' ')[0]`. -/

def listStartsWith (pat s : List Char) : Bool :=
  match pat, s with
  | [], _ => true
  | _ :: _, [] => false
  | p :: ps, c :: cs => p == c && listStartsWith ps cs

def hasSubList (pat : List Char) : List Char → Bool
  | [] => pat.isEmpty
  | c :: cs => listStartsWith pat (c :: cs) || hasSubList pat cs

def jsIncludes (hay needle : String) : Bool :=
  hasSubList needle.data hay.data

def jsToLower (s : String) : String :=
  ⟨s.data.map Char.toLower⟩

def firstWord (s : String) : String :=
  ⟨s.data.takeWhile (fun c => c ≠ ' ')⟩

/-- `replaceFirstList pat rep s` replaces the first (leftmost) occurrence of
`pat` in `s` by `rep`, as JavaScript's `s.replace(pat, rep)` does for string
patterns; when `pat` does not occur, `s` is returned unchanged. -/
def replaceFirstList (pat rep : List Char) : List Char → List Char
  | [] => if pat.isEmpty then rep else []
  | c :: cs =>
    if listStartsWith pat (c :: cs) then rep ++ (c :: cs).drop pat.length
    else c :: replaceFirstList pat rep cs

def jsReplaceFirst (s pat rep : String) : String :=
  ⟨replaceFirstList pat.data rep.data s.data⟩

/-! ## Usage counter / rate limiter
(src/src/middleware/rateLimiter.js, `recipeGenerationLimiter`)

The middleware consults the `users` table for a premium check, then the
`recipe_usage` table keyed by `(identifier, date)`.  Database reads are
modelled as oracles returning `Except DbError`; Supabase's `.single()`
reports a missing row as error code `PGRST116`.  The store writes the
middleware performs are returned as a list of `WriteOp`s so that a
separate store semantics can apply (or drop) them. -/

structure SubscriptionRow where
  subscription_status : String
  subscription_tier : String
  deriving DecidableEq, Repr

inductive DbError
  /-- PostgREST error code `PGRST116`: no rows returned by `.single()`. -/
  | pgrst116
  /-- any other database error -/
  | other (message : String)
  deriving DecidableEq, Repr

inductive WriteOp
  | update (identifier date : String) (newCount : Nat)
  | insert (identifier date : String) (count : Nat) (user_id : Option String)
  deriving DecidableEq, Repr

structure RejectionBody where
  error : String
  message : String
  limit : Nat
  current : Nat
  upgradeUrl : String
  deriving DecidableEq, Repr

inductive LimiterResult
  /-- the middleware called `next()`: the request is admitted -/
  | next
  /-- HTTP 429 with the structured limit-reached body -/
  | limitReached (body : RejectionBody)
  /-- HTTP 500 `{ error: 'Internal server error' }` -/
  | serverError
  deriving DecidableEq, Repr

def maxFreeRecipes : Nat := 3

def limitReachedBody (currentCount : Nat) : RejectionBody :=
  { error := "Daily recipe limit reached"
    message := "You have reached your daily limit of 3 free recipes. Please upgrade to Premium for unlimited recipes."
    limit := maxFreeRecipes
    current := currentCount
    upgradeUrl := "/membership" }

/-- The `recipeGenerationLimiter` middleware.  `lookupUser` is the response
of the `users`-table read (`.single()`), `lookupUsage` the response of the
`recipe_usage` read for `(identifier, today)`; `usageRecord?.count || 0`
maps a missing record to count `0`.  Returns the HTTP outcome together
with the store writes the middleware issued. -/
def recipeGenerationLimiter (userId : Option String) (ipAddress today : String)
    (lookupUser : String → Except DbError SubscriptionRow)
    (lookupUsage : String → String → Except DbError Nat) :
    LimiterResult × List WriteOp :=
  let premiumShortCircuit : Option (LimiterResult × List WriteOp) :=
    match userId with
    | none => none
    | some uid =>
      match lookupUser uid with
      | .error _ => some (.serverError, [])
      | .ok user =>
        if user.subscription_status == "active" && user.subscription_tier == "premium" then
          some (.next, [])
        else none
  match premiumShortCircuit with
  | some r => r
  | none =>
    let identifier := userId.getD ipAddress
    match lookupUsage identifier today with
    | .error .pgrst116 =>
      -- no usage record today: currentCount = 0 < 3, insert a fresh row
      (.next, [.insert identifier today 1 userId])
    | .error (.other _) => (.serverError, [])
    | .ok currentCount =>
      if currentCount ≥ maxFreeRecipes then
        (.limitReached (limitReachedBody currentCount), [])
      else
        (.next, [.update identifier today (currentCount + 1)])

/-! ### Store semantics for `recipe_usage` -/

structure UsageRecord where
  identifier : String
  date : String
  count : Nat
  user_id : Option String
  deriving DecidableEq, Repr

abbrev UsageStore := List UsageRecord

def matchesKey (identifier date : String) (r : UsageRecord) : Bool :=
  r.identifier == identifier && r.date == date

/-- The `recipe_usage` read issued by the middleware: `.single()` on the
rows with this identifier and date; a missing row is `PGRST116`. -/
def readUsage (store : UsageStore) (identifier date : String) : Except DbError Nat :=
  match store.find? (matchesKey identifier date) with
  | some r => .ok r.count
  | none => .error .pgrst116

def applyWriteOp (store : UsageStore) : WriteOp → UsageStore
  | .update identifier date n =>
    store.map (fun r => if matchesKey identifier date r then { r with count := n } else r)
  | .insert identifier date n uid => store ++ [⟨identifier, date, n, uid⟩]

/-- One request through the limiter against an honest store.  `failWrite`
models the increment write failing at the database: the middleware awaits
the write but never inspects its result (the Supabase client reports
errors as values, not exceptions), so a failed write leaves the store
unchanged while the HTTP outcome is unaffected. -/
def limiterStep (userId : Option String) (ipAddress today : String)
    (lookupUser : String → Except DbError SubscriptionRow)
    (failWrite : Bool) (store : UsageStore) : LimiterResult × UsageStore :=
  let out := recipeGenerationLimiter userId ipAddress today lookupUser (readUsage store)
  (out.1, if failWrite then store else out.2.foldl applyWriteOp store)

/-- The caller is not a premium subscriber: either anonymous, or the
`users` row read succeeds and is not (status `active`, tier `premium`). -/
def NonPremiumCaller (userId : Option String)
    (lookupUser : String → Except DbError SubscriptionRow) : Prop :=
  match userId with
  | none => True
  | some uid =>
    ∃ u, lookupUser uid = .ok u ∧
      ¬(u.subscription_status = "active" ∧ u.subscription_tier = "premium")

/-! ## Recipe data model and the template catalog
(src/server.js, `getRecipeTemplates`) -/

structure Nutrition where
  calories : String
  protein : String
  carbs : String
  fat : String
  deriving DecidableEq, Repr

structure Recipe where
  name : String
  description : String
  prepTime : String
  cookTime : String
  totalTime : String
  servings : String
  difficulty : String
  ingredients : List String
  instructions : List String
  tips : List String
  nutrition : Option Nutrition
  deriving DecidableEq, Repr

structure RecipeTemplates where
  korean : List Recipe
  italian : List Recipe
  asian : List Recipe
  mexican : List Recipe
  default : List Recipe
  deriving DecidableEq, Repr

def kimchiFriedRice : Recipe :=
  { name := "김치볶음밥"
    description := "매콤하고 고소한 한국의 대표 볶음밥"
    prepTime := "10분", cookTime := "15분", totalTime := "25분"
    servings := "2인분", difficulty := "easy"
    ingredients := ["밥 2공기", "김치 1컵", "돼지고기 100g", "달걀 2개",
      "파 2대", "마늘 2쪽", "참기름 1큰술", "간장 1큰술"]
    instructions := ["팬에 기름을 두르고 돼지고기를 볶아줍니다",
      "김치를 넣고 함께 볶아줍니다", "밥을 넣고 잘 섞어가며 볶아줍니다",
      "간장으로 간을 맞추고 파를 넣습니다",
      "달걀을 풀어서 넣고 골고루 섞어줍니다", "참기름을 넣고 마무리합니다"]
    tips := ["김치는 잘 익은 것을 사용하세요", "밥은 차가운 밥을 사용하면 더 맛있습니다"]
    nutrition := some ⟨"약 520kcal", "25g", "65g", "18g"⟩ }

def doenjangJjigae : Recipe :=
  { name := "된장찌개"
    description := "구수하고 진한 된장의 맛"
    prepTime := "15분", cookTime := "20분", totalTime := "35분"
    servings := "3-4인분", difficulty := "easy"
    ingredients := ["된장 3큰술", "두부 1/2모", "감자 1개", "양파 1/2개",
      "애호박 1/3개", "청양고추 2개", "마늘 3쪽", "멸치육수 2컵"]
    instructions := ["멸치육수를 우려냅니다", "감자와 양파를 큼직하게 썰어줍니다",
      "끓는 육수에 된장을 풀어줍니다", "감자와 양파를 넣고 끓입니다",
      "두부와 애호박, 고추를 넣습니다", "마늘과 파를 넣고 마무리합니다"]
    tips := ["된장은 체에 거르면 더 부드럽습니다", "두부는 마지막에 넣어 부서지지 않게 하세요"]
    nutrition := some ⟨"약 180kcal", "12g", "15g", "8g"⟩ }

def creamPasta : Recipe :=
  { name := "크림 파스타"
    description := "부드럽고 진한 크림소스 파스타"
    prepTime := "10분", cookTime := "20분", totalTime := "30분"
    servings := "2인분", difficulty := "easy"
    ingredients := ["파스타 200g", "생크림 200ml", "베이컨 100g", "양파 1/2개",
      "마늘 3쪽", "파마산 치즈 50g", "올리브오일 2큰술", "소금, 후추 약간"]
    instructions := ["파스타를 소금물에 삶아줍니다",
      "팬에 올리브오일을 두르고 베이컨을 볶습니다", "양파와 마늘을 넣고 볶아줍니다",
      "생크림을 넣고 끓어오르면 약불로 줄입니다", "삶은 파스타를 넣고 잘 섞어줍니다",
      "파마산 치즈와 후추를 넣고 마무리합니다"]
    tips := ["파스타는 알덴테로 삶으세요", "크림은 끓이면 분리될 수 있으니 주의하세요"]
    nutrition := none }

def tomatoPasta : Recipe :=
  { name := "토마토 파스타"
    description := "신선한 토마토의 상큼한 맛"
    prepTime := "15분", cookTime := "25분", totalTime := "40분"
    servings := "2인분", difficulty := "easy"
    ingredients := ["파스타 200g", "토마토 캔 1개", "양파 1개", "마늘 4쪽",
      "바질 잎 10장", "올리브오일 3큰술", "소금, 후추", "파마산 치즈"]
    instructions := ["파스타를 삶기 시작합니다", "양파와 마늘을 잘게 다져줍니다",
      "팬에 올리브오일을 두르고 양파를 볶습니다", "마늘을 넣고 향이 날 때까지 볶습니다",
      "토마토 캔을 넣고 끓여줍니다", "삶은 파스타와 바질을 넣고 섞습니다"]
    tips := ["토마토는 으깨가며 볶으면 더 진한 맛이 납니다", "바질은 마지막에 넣어 향을 살리세요"]
    nutrition := none }

def friedNoodles : Recipe :=
  { name := "볶음면"
    description := "간단하고 맛있는 아시안 볶음면"
    prepTime := "10분", cookTime := "15분", totalTime := "25분"
    servings := "2인분", difficulty := "easy"
    ingredients := ["라면 2개", "양배추 2잎", "당근 1/2개", "양파 1/2개",
      "간장 2큰술", "굴소스 1큰술", "참기름 1큰술", "식용유 2큰술"]
    instructions := ["면을 끓는 물에 살짝 삶아줍니다", "야채들을 채 썰어 준비합니다",
      "팬에 기름을 두르고 야채를 볶습니다", "면을 넣고 함께 볶아줍니다",
      "간장과 굴소스로 간을 맞춥니다", "참기름을 넣고 마무리합니다"]
    tips := ["면은 너무 오래 삶지 마세요", "강한 불에서 빠르게 볶는 것이 포인트입니다"]
    nutrition := none }

def chickenBurrito : Recipe :=
  { name := "치킨 부리또"
    description := "매콤한 치킨과 신선한 야채의 조화"
    prepTime := "20분", cookTime := "15분", totalTime := "35분"
    servings := "2인분", difficulty := "medium"
    ingredients := ["토르티야 4장", "닭가슴살 300g", "양파 1개", "피망 1개",
      "토마토 1개", "치즈 100g", "사워크림", "타코 시즈닝"]
    instructions := ["닭가슴살을 먹기 좋은 크기로 자릅니다", "야채들을 썰어 준비합니다",
      "닭고기에 시즈닝을 발라 볶습니다", "야채를 넣고 함께 볶아줍니다",
      "토르티야에 재료들을 올립니다", "말아서 완성합니다"]
    tips := ["토르티야는 살짝 데워서 사용하세요", "속이 너무 많으면 말기 어려우니 적당히 넣으세요"]
    nutrition := none }

def chickenVeggieStirFry : Recipe :=
  { name := "닭가슴살 야채볶음"
    description := "건강하고 담백한 고단백 요리"
    prepTime := "10분", cookTime := "15분", totalTime := "25분"
    servings := "2인분", difficulty := "easy"
    ingredients := ["닭가슴살 200g", "양파 1개", "피망 2개", "마늘 3쪽",
      "간장 2큰술", "올리브오일 2큰술", "소금, 후추 약간"]
    instructions := ["닭가슴살을 한입 크기로 자릅니다", "야채들을 적당한 크기로 썰어둡니다",
      "팬에 기름을 두르고 닭가슴살을 볶습니다", "닭고기가 익으면 야채를 넣고 볶습니다",
      "간장으로 간을 맞추고 잘 섞어줍니다", "소금과 후추로 마지막 간을 맞춥니다"]
    tips := ["닭가슴살은 너무 오래 볶으면 퍽퍽해집니다", "야채는 아삭한 식감을 살려주세요"]
    nutrition := some ⟨"약 350kcal", "35g", "12g", "18g"⟩ }

def eggFriedRice : Recipe :=
  { name := "계란볶음밥"
    description := "간단하지만 맛있는 기본 볶음밥"
    prepTime := "5분", cookTime := "10분", totalTime := "15분"
    servings := "1인분", difficulty := "easy"
    ingredients := ["밥 1공기", "계란 2개", "파 1대", "마늘 1쪽",
      "간장 1큰술", "참기름 1작은술", "식용유 2큰술", "소금 약간"]
    instructions := ["계란을 풀어서 소금으로 간합니다", "팬에 기름을 두르고 계란을 스크램블합니다",
      "마늘을 넣고 볶아줍니다", "밥을 넣고 계란과 섞어 볶습니다",
      "간장과 파를 넣어 볶습니다", "참기름을 넣고 마무리합니다"]
    tips := ["계란은 부드럽게 스크램블하세요", "찬밥을 사용하면 더 고슬고슬합니다"]
    nutrition := none }

def gardenSalad : Recipe :=
  { name := "샐러드"
    description := "신선하고 건강한 야채 샐러드"
    prepTime := "15분", cookTime := "0분", totalTime := "15분"
    servings := "2인분", difficulty := "easy"
    ingredients := ["양상추 1통", "토마토 2개", "오이 1개", "당근 1/2개",
      "올리브오일 3큰술", "식초 1큰술", "소금, 후추", "치즈 (선택)"]
    instructions := ["양상추는 찬물에 씻어 물기를 제거합니다", "토마토는 먹기 좋은 크기로 자릅니다",
      "오이와 당근을 슬라이스합니다", "모든 야채를 그릇에 담습니다",
      "올리브오일과 식초를 섞어 드레싱을 만듭니다", "드레싱을 뿌리고 섞어서 완성합니다"]
    tips := ["야채는 차갑게 보관했다 사용하세요", "드레싱은 먹기 직전에 뿌리세요"]
    nutrition := none }

/-- The fixed template catalog returned by `getRecipeTemplates`. -/
def recipeTemplates : RecipeTemplates :=
  { korean := [kimchiFriedRice, doenjangJjigae]
    italian := [creamPasta, tomatoPasta]
    asian := [friedNoodles]
    mexican := [chickenBurrito]
    default := [chickenVeggieStirFry, eggFriedRice, gardenSalad] }

/-! ## Ingredient matcher
(src/server.js, `parseIngredients` and `findBestMatchingRecipe`) -/

def splitCommaNewlineAux (acc : List Char) : List Char → List (List Char)
  | [] => [acc.reverse]
  | c :: cs =>
    if c = ',' ∨ c = '\n' then acc.reverse :: splitCommaNewlineAux [] cs
    else splitCommaNewlineAux (c :: acc) cs

def jsTrimList (s : List Char) : List Char :=
  ((s.dropWhile Char.isWhitespace).reverse.dropWhile Char.isWhitespace).reverse

/-- `parseIngredients`: lowercase, split on commas and newlines, trim each
token, drop empty tokens. -/
def parseIngredients (ingredientsString : String) : List String :=
  (((splitCommaNewlineAux [] (jsToLower ingredientsString).data).map
    (fun l => (⟨jsTrimList l⟩ : String))).filter (fun i => i.length > 0))

/-- The pool `findBestMatchingRecipe` searches.  Mirrors the source, which
spreads `recipes.korean`, `recipes.italian`, `recipes.asian` and
`recipes.default` — the `mexican` category of the catalog is absent. -/
def allRecipes (recipes : RecipeTemplates) : List Recipe :=
  recipes.korean ++ recipes.italian ++ recipes.asian ++ recipes.default

/-- A template's match score: the number of user ingredient tokens occurring
as substrings of the template's space-joined, lowercased ingredient text. -/
def scoreRecipe (userIngredients : List String) (recipe : Recipe) : Nat :=
  let recipeIngredients := jsToLower (String.intercalate " " recipe.ingredients)
  userIngredients.countP (fun u => jsIncludes recipeIngredients u)

/-- `findBestMatchingRecipe`: fold over the pool keeping the first template
whose score strictly exceeds the best so far, starting from the pool's head
with best score `0`.  `none` corresponds to the `undefined` JavaScript
would produce on an empty pool. -/
def findBestMatchingRecipe (userIngredients : List String)
    (recipes : RecipeTemplates) : Option Recipe :=
  match allRecipes recipes with
  | [] => none
  | r0 :: _ =>
    some ((allRecipes recipes).foldl
      (fun acc recipe =>
        let score := scoreRecipe userIngredients recipe
        if score > acc.2 then (recipe, score) else acc)
      (r0, 0)).1

/-! ## Recipe customizer
(src/server.js, `customizeRecipe`, `applyDietaryRestrictions`,
`adjustDifficulty`)

The user-selected options; a JavaScript field that is `undefined` or the
empty string (both falsy, both skipping the corresponding step) is
modelled as `none`. -/

structure FormData where
  ingredients : String
  cuisine : Option String
  cookingTime : Option String
  dietary : Option String
  skillLevel : Option String
  deriving DecidableEq, Repr

/-- The check guarding the push of a user ingredient: some entry of the
working list contains the token, or the token contains the entry's
lowercased first word. -/
def isAlreadyIncluded (list : List String) (userIngredient : String) : Bool :=
  list.any fun ingredient =>
    jsIncludes (jsToLower ingredient) userIngredient ||
    jsIncludes userIngredient (firstWord (jsToLower ingredient))

/-- The user-ingredient loop of `customizeRecipe`: starting from the
recipe's ingredient list, push `<token> 적당량` for every token longer than
2 characters that the (growing) list does not already include. -/
def addUserIngredients (base : List String) (userIngredients : List String) : List String :=
  userIngredients.foldl
    (fun acc userIngredient =>
      if !isAlreadyIncluded acc userIngredient && userIngredient.length > 2 then
        acc ++ [userIngredient ++ " 적당량"]
      else acc)
    base

/-- The fixed `timeAdjustments` lookup: (prep, cook, total). -/
def timeAdjustment (cookingTime : String) : Option (String × String × String) :=
  match cookingTime with
  | "quick" => some ("5분", "10분", "15분")
  | "medium" => some ("10분", "20분", "30분")
  | "long" => some ("15분", "45분", "60분")
  | "extended" => some ("30분", "90분", "120분")
  | _ => none

structure ReplacePair where
  «from» : String
  «to» : String
  deriving DecidableEq, Repr

structure DietRestriction where
  replace : List ReplacePair
  avoid : List String
  deriving DecidableEq, Repr

/-- The fixed `restrictions` table of `applyDietaryRestrictions`. -/
def dietaryRestrictionTable (dietary : String) : Option DietRestriction :=
  match dietary with
  | "vegetarian" =>
    some { replace := [⟨"닭가슴살", "두부"⟩, ⟨"돼지고기", "버섯"⟩, ⟨"쇠고기", "콩고기"⟩]
           avoid := ["고기", "생선", "새우"] }
  | "vegan" =>
    some { replace := [⟨"달걀", "아쿠아파바"⟩, ⟨"우유", "두유"⟩, ⟨"버터", "올리브오일"⟩,
             ⟨"치즈", "영양효모"⟩]
           avoid := ["고기", "생선", "달걀", "유제품"] }
  | "gluten-free" =>
    some { replace := [⟨"밀가루", "쌀가루"⟩, ⟨"면", "쌀면"⟩, ⟨"빵", "쌀빵"⟩]
           avoid := ["밀가루", "글루텐"] }
  | "keto" =>
    some { replace := [⟨"쌀", "콜리플라워 라이스"⟩, ⟨"감자", "무"⟩, ⟨"설탕", "스테비아"⟩]
           avoid := ["쌀", "면", "감자", "설탕"] }
  | _ => none

/-- `applyDietaryRestrictions`: for each pair of the restriction's table in
order, map over the ingredient entries replacing (as JavaScript `replace`
does, the first occurrence only) `from` by `to`; append the restriction
name in parentheses to the recipe title.  Unknown restrictions return the
recipe unchanged. -/
def applyDietaryRestrictions (recipe : Recipe) (dietary : String) : Recipe :=
  match dietaryRestrictionTable dietary with
  | none => recipe
  | some restriction =>
    let modifiedIngredients := restriction.replace.foldl
      (fun ings pair => ings.map (fun ingredient =>
        if jsIncludes ingredient pair.«from» then
          jsReplaceFirst ingredient pair.«from» pair.«to»
        else ingredient))
      recipe.ingredients
    { recipe with ingredients := modifiedIngredients
                  name := recipe.name ++ " (" ++ dietary ++ ")" }

def adjustDifficulty (currentDifficulty skillLevel : String) : String :=
  match skillLevel with
  | "beginner" => "easy"
  | "intermediate" => "medium"
  | "advanced" => "hard"
  | _ => currentDifficulty

/-- The fixed marker set of the cuisine-emoji regular expression
`/[🍳🍝🍚🍜🌮🍔🥙🍛🥐]/` in `customizeRecipe`. -/
def recipeNameMarkers : List Char := ['🍳', '🍝', '🍚', '🍜', '🌮', '🍔', '🥙', '🍛', '🥐']

def hasCuisineMarker (name : String) : Bool :=
  name.data.any (fun c => recipeNameMarkers.contains c)

/-- Number of occurrences of fixed-set markers in a recipe name. -/
def markerCount (name : String) : Nat :=
  name.data.countP (fun c => recipeNameMarkers.contains c)

/-- `cuisineEmojis[formData.cuisine] || '🍳'`. -/
def cuisineEmoji (cuisine : Option String) : String :=
  match cuisine with
  | some "korean" => "🍚"
  | some "italian" => "🍝"
  | some "asian" => "🍜"
  | some "mexican" => "🌮"
  | some "american" => "🍔"
  | some "mediterranean" => "🥙"
  | some "indian" => "🍛"
  | some "french" => "🥐"
  | _ => "🍳"

/-- The cuisine-marker step of `customizeRecipe`: prepend the cuisine emoji
(with a space) unless the name already contains a marker of the fixed set. -/
def addCuisineMarker (cuisine : Option String) (name : String) : String :=
  if hasCuisineMarker name then name else cuisineEmoji cuisine ++ " " ++ name

/-- `customizeRecipe`.  Note the source's final statement
`return { ...customizedRecipe, ingredients: customizedIngredients }`:
the returned ingredient list is the user-augmented copy of the *original*
list, overriding whatever `applyDietaryRestrictions` computed. -/
def customizeRecipe (recipe : Recipe) (formData : FormData)
    (userIngredients : List String) : Recipe :=
  let customizedIngredients := addUserIngredients recipe.ingredients userIngredients
  let afterTime :=
    match formData.cookingTime with
    | none => recipe
    | some ct =>
      match timeAdjustment ct with
      | none => recipe
      | some (p, c, t) => { recipe with prepTime := p, cookTime := c, totalTime := t }
  let afterDietary :=
    match formData.dietary with
    | none => afterTime
    | some d => applyDietaryRestrictions afterTime d
  let afterSkill :=
    match formData.skillLevel with
    | none => afterDietary
    | some sl => { afterDietary with difficulty := adjustDifficulty afterDietary.difficulty sl }
  let afterEmoji := { afterSkill with name := addCuisineMarker formData.cuisine afterSkill.name }
  { afterEmoji with ingredients := customizedIngredients }

/-! ## Backend `enhanceRecipe` cuisine-marker step
(src/unnamed/part_000, `enhanceRecipe`, lines 280–296)

The backend route's marker step only runs when `options.cuisine` is
truthy, and its presence check tests only the two markers `'🍳'` and
`'🍝'` before prepending `cuisineEmojis[options.cuisine] || '🍳'`. -/

def enhanceCuisineEmoji (cuisine : String) : String :=
  match cuisine with
  | "korean" => "🍚"
  | "italian" => "🍝"
  | "asian" => "🍜"
  | "mexican" => "🌮"
  | "american" => "🍔"
  | "mediterranean" => "🥙"
  | "indian" => "🍛"
  | "french" => "🥐"
  | _ => "🍳"

def enhanceRecipeMarkerStep (cuisine : Option String) (name : String) : String :=
  match cuisine with
  | none => name
  | some c =>
    if !(name.data.contains '🍳') && !(name.data.contains '🍝') then
      enhanceCuisineEmoji c ++ " " ++ name
    else name

/-! ## Subscription state synchronizer
(src/README.md, `router.post('/webhook')` and the six handlers)

Each handler maps event fields onto the user row selected by the
metadata-carried user id; `now` is the processing-time ISO timestamp
(`new Date().toISOString()`), period timestamps arrive in the event.
Every handler wraps its body in `try/catch` and swallows its own errors,
modelled by the `handlerUpdateFails` flag leaving the table unchanged. -/

structure UserRow where
  subscription_status : String
  subscription_tier : String
  subscription_start_date : Option String
  subscription_end_date : Option String
  updated_at : String
  deriving DecidableEq, Repr

def handleCheckoutSessionCompleted (plan now : String) (row : UserRow) : UserRow :=
  { row with subscription_status := "active", subscription_tier := plan
             subscription_start_date := some now, updated_at := now }

def handleSubscriptionCreated (created currentPeriodEnd now : String) (row : UserRow) : UserRow :=
  { row with subscription_status := "active", subscription_tier := "premium"
             subscription_start_date := some created
             subscription_end_date := some currentPeriodEnd, updated_at := now }

def handleSubscriptionUpdated (status currentPeriodEnd now : String) (row : UserRow) : UserRow :=
  { row with subscription_status := status
             subscription_end_date := some currentPeriodEnd, updated_at := now }

def handleSubscriptionDeleted (now : String) (row : UserRow) : UserRow :=
  { row with subscription_status := "cancelled", subscription_tier := "free"
             subscription_end_date := some now, updated_at := now }

def handlePaymentSucceeded (currentPeriodEnd now : String) (row : UserRow) : UserRow :=
  { row with subscription_status := "active"
             subscription_end_date := some currentPeriodEnd, updated_at := now }

/-- `handlePaymentFailed` only logs; no state change. -/
def handlePaymentFailed (row : UserRow) : UserRow := row

inductive StripeEvent
  | checkoutSessionCompleted (userId plan : String)
  | customerSubscriptionCreated (userId created currentPeriodEnd : String)
  | customerSubscriptionUpdated (userId status currentPeriodEnd : String)
  | customerSubscriptionDeleted (userId : String)
  | invoicePaymentSucceeded (userId currentPeriodEnd : String)
  | invoicePaymentFailed (userId : String)
  | otherEvent (eventType : String)
  deriving DecidableEq, Repr

abbrev UsersTable := List (String × UserRow)

def updateUser (users : UsersTable) (userId : String) (f : UserRow → UserRow) : UsersTable :=
  users.map (fun entry => if entry.1 == userId then (entry.1, f entry.2) else entry)

/-- The `switch (event.type)` dispatch of the webhook endpoint; unhandled
kinds are logged and ignored. -/
def dispatchWebhookEvent (event : StripeEvent) (now : String) (users : UsersTable) : UsersTable :=
  match event with
  | .checkoutSessionCompleted userId plan =>
    updateUser users userId (handleCheckoutSessionCompleted plan now)
  | .customerSubscriptionCreated userId created currentPeriodEnd =>
    updateUser users userId (handleSubscriptionCreated created currentPeriodEnd now)
  | .customerSubscriptionUpdated userId status currentPeriodEnd =>
    updateUser users userId (handleSubscriptionUpdated status currentPeriodEnd now)
  | .customerSubscriptionDeleted userId =>
    updateUser users userId (handleSubscriptionDeleted now)
  | .invoicePaymentSucceeded userId currentPeriodEnd =>
    updateUser users userId (handlePaymentSucceeded currentPeriodEnd now)
  | .invoicePaymentFailed userId => updateUser users userId handlePaymentFailed
  | .otherEvent _ => users

inductive WebhookHttpResult
  /-- `res.json({ received: true })` — HTTP 200 acknowledgment -/
  | received200
  /-- signature verification failed — HTTP 400 `Webhook Error: ...` -/
  | badRequest400
  deriving DecidableEq, Repr

/-- `POST /api/subscription/webhook`: verify the signature (400 on
failure), dispatch the event — each handler swallowing its own errors —
then acknowledge with 200. -/
def webhookEndpoint (signatureValid : Bool) (event : StripeEvent)
    (handlerUpdateFails : Bool) (now : String) (users : UsersTable) :
    WebhookHttpResult × UsersTable :=
  if !signatureValid then (.badRequest400, users)
  else (.received200, if handlerUpdateFails then users else dispatchWebhookEvent event now users)

/-! ## The generate-recipe route pipeline
(src/unnamed/part_000, `router.post('/generate-recipe', optionalAuth,
recipeGenerationLimiter, recipeValidation, handler)`)

The usage limiter runs as middleware before the express-validator rules
are evaluated inside the handler. -/

def optionalFieldIn (v : Option String) (allowed : List String) : Bool :=
  match v with
  | none => true
  | some s => allowed.contains s

/-- The `recipeValidation` rules: `ingredients` is a string of 3–500
characters; the optional enum fields must belong to their allowed sets. -/
def recipeValidationPasses (b : FormData) : Bool :=
  (3 ≤ b.ingredients.length && b.ingredients.length ≤ 500) &&
  optionalFieldIn b.cuisine
    ["korean", "italian", "asian", "mexican", "american", "mediterranean", "indian", "french", ""] &&
  optionalFieldIn b.cookingTime ["quick", "medium", "long", "extended", ""] &&
  optionalFieldIn b.dietary
    ["vegetarian", "vegan", "gluten-free", "low-carb", "keto", "high-protein", ""] &&
  optionalFieldIn b.skillLevel ["beginner", "intermediate", "advanced"]

inductive RouteResponse
  /-- the handler proceeded to recipe generation (LLM call; out of scope) -/
  | proceeded
  /-- HTTP 400 `Validation failed` -/
  | validationError
  /-- HTTP 429 from the limiter -/
  | limited (body : RejectionBody)
  /-- HTTP 500 from the limiter -/
  | limiterServerError
  deriving DecidableEq, Repr

/-- The route pipeline up to the validation check: the limiter middleware
runs first (reading and writing the usage store); only if it calls
`next()` does the handler evaluate the validation result. -/
def generateRecipeRoute (userId : Option String) (ipAddress today : String)
    (lookupUser : String → Except DbError SubscriptionRow)
    (body : FormData) (failWrite : Bool) (store : UsageStore) :
    RouteResponse × UsageStore :=
  let out := limiterStep userId ipAddress today lookupUser failWrite store
  match out.1 with
  | .next =>
    (if recipeValidationPasses body then .proceeded else .validationError, out.2)
  | .limitReached b => (.limited b, out.2)
  | .serverError => (.limiterServerError, out.2)

/-- The additions the amended claim C9 describes: walking the user tokens
in order while carrying the working ingredient list, a token of length at
least 3 that the working list does not already include contributes the
single tagged entry `<token> 적당량` (which then extends the working
list); every other token contributes nothing. -/
def userAdditions (working : List String) : List String → List String
  | [] => []
  | u :: rest =>
    if !isAlreadyIncluded working u && u.length > 2 then
      (u ++ " 적당량") :: userAdditions (working ++ [u ++ " 적당량"]) rest
    else userAdditions working rest

/-! ## Helper lemmas -/

theorem find?_append_of_none {α : Type} (p : α → Bool) (l₁ l₂ : List α)
    (h : l₁.find? p = none) : (l₁ ++ l₂).find? p = l₂.find? p := by
  induction l₁ with
  | nil => simp
  | cons a t ih =>
    cases hpa : p a
    · simp only [List.cons_append, List.find?_cons, hpa] at h ⊢
      exact ih h
    · simp only [List.find?_cons, hpa] at h
      exact absurd h (by simp)

theorem map_if_self_of_find?_none {α : Type} (p : α → Bool) (f : α → α)
    (l : List α) (h : l.find? p = none) :
    l.map (fun r => if p r then f r else r) = l := by
  rw [List.find?_eq_none] at h
  calc l.map (fun r => if p r then f r else r) = l.map id := by
        apply List.map_congr_left
        intro a ha
        simp [h a ha]
    _ = l := List.map_id l

theorem matchesKey_set_count (identifier date : String) (r : UsageRecord) (n : Nat) :
    matchesKey identifier date { r with count := n } = matchesKey identifier date r := rfl

theorem recipeGenerationLimiter_free (userId : Option String) (ip today : String)
    (lookupUser : String → Except DbError SubscriptionRow)
    (lookupUsage : String → String → Except DbError Nat)
    (h : NonPremiumCaller userId lookupUser) :
    recipeGenerationLimiter userId ip today lookupUser lookupUsage =
      (match lookupUsage (userId.getD ip) today with
        | .error .pgrst116 => (.next, [.insert (userId.getD ip) today 1 userId])
        | .error (.other _) => (.serverError, [])
        | .ok c =>
          if c ≥ maxFreeRecipes then (.limitReached (limitReachedBody c), [])
          else (.next, [.update (userId.getD ip) today (c + 1)])) := by
  match userId with
  | none => rfl
  | some uid =>
    simp only [NonPremiumCaller] at h
    obtain ⟨u, hu, hnp⟩ := h
    have hb : (u.subscription_status == "active" && u.subscription_tier == "premium") = false := by
      rcases Bool.eq_false_or_eq_true
          (u.subscription_status == "active" && u.subscription_tier == "premium") with ht | hf
      · exact absurd (by simpa [Bool.and_eq_true, beq_iff_eq] using ht) hnp
      · exact hf
    simp [recipeGenerationLimiter, hu, hb]

theorem limiterStep_absent (userId : Option String) (ip today : String)
    (lookupUser : String → Except DbError SubscriptionRow) (store : UsageStore)
    (h : NonPremiumCaller userId lookupUser)
    (h0 : store.find? (matchesKey (userId.getD ip) today) = none) :
    limiterStep userId ip today lookupUser false store =
      (.next, store ++ [⟨userId.getD ip, today, 1, userId⟩]) := by
  have hr : readUsage store (userId.getD ip) today = .error .pgrst116 := by
    simp [readUsage, h0]
  simp [limiterStep, recipeGenerationLimiter_free _ _ _ _ _ h, hr, applyWriteOp]

theorem limiterStep_present (userId : Option String) (ip today : String)
    (lookupUser : String → Except DbError SubscriptionRow) (store : UsageStore)
    (r : UsageRecord) (h : NonPremiumCaller userId lookupUser)
    (hf : store.find? (matchesKey (userId.getD ip) today) = some r) :
    limiterStep userId ip today lookupUser false store =
      (if r.count ≥ maxFreeRecipes then
        (.limitReached (limitReachedBody r.count), store)
      else
        (.next, store.map (fun x =>
          if matchesKey (userId.getD ip) today x then { x with count := r.count + 1 } else x))) := by
  have hr : readUsage store (userId.getD ip) today = .ok r.count := by
    simp [readUsage, hf]
  by_cases hc : r.count ≥ maxFreeRecipes
  · simp [limiterStep, recipeGenerationLimiter_free _ _ _ _ _ h, hr, hc]
  · simp [limiterStep, recipeGenerationLimiter_free _ _ _ _ _ h, hr, hc, applyWriteOp]

/-! ## Claim theorems -/

/-- C1: for any identifier (anonymous IP or authenticated non-premium
user) with no usage record for today, four sequential requests through
`recipeGenerationLimiter` are handled as: requests 1–3 are admitted and
leave the stored daily count at 1, 2 and 3; request 4 is rejected with
the 429 body carrying `limit = 3`, `current = 3` and the `/membership`
upgrade pointer, and the stored count stays at 3. -/
theorem limiter_daily_quota_sequence (userId : Option String) (ip today : String)
    (lookupUser : String → Except DbError SubscriptionRow) (store : UsageStore)
    (h : NonPremiumCaller userId lookupUser)
    (h0 : store.find? (matchesKey (userId.getD ip) today) = none) :
    ∃ s1 s2 s3 : UsageStore,
      limiterStep userId ip today lookupUser false store = (.next, s1) ∧
      readUsage s1 (userId.getD ip) today = .ok 1 ∧
      limiterStep userId ip today lookupUser false s1 = (.next, s2) ∧
      readUsage s2 (userId.getD ip) today = .ok 2 ∧
      limiterStep userId ip today lookupUser false s2 = (.next, s3) ∧
      readUsage s3 (userId.getD ip) today = .ok 3 ∧
      limiterStep userId ip today lookupUser false s3 =
        (.limitReached (limitReachedBody 3), s3) ∧
      (limitReachedBody 3).limit = 3 ∧ (limitReachedBody 3).current = 3 ∧
      (limitReachedBody 3).upgradeUrl = "/membership" := by
  have hfind : ∀ n : Nat,
      ((store ++ [⟨userId.getD ip, today, n, userId⟩] : UsageStore).find?
        (matchesKey (userId.getD ip) today)) = some ⟨userId.getD ip, today, n, userId⟩ := by
    intro n
    rw [find?_append_of_none _ _ _ h0]
    simp [matchesKey]
  have hmap : ∀ n m : Nat,
      ((store ++ [⟨userId.getD ip, today, n, userId⟩] : UsageStore).map
        (fun x => if matchesKey (userId.getD ip) today x then { x with count := m } else x)) =
        store ++ [⟨userId.getD ip, today, m, userId⟩] := by
    intro n m
    rw [List.map_append, map_if_self_of_find?_none _ _ _ h0]
    simp [matchesKey]
  have hread : ∀ n : Nat,
      readUsage (store ++ [⟨userId.getD ip, today, n, userId⟩]) (userId.getD ip) today = .ok n := by
    intro n
    simp [readUsage, hfind n]
  have st1 := limiterStep_absent userId ip today lookupUser store h h0
  have st2 := limiterStep_present userId ip today lookupUser
    (store ++ [⟨userId.getD ip, today, 1, userId⟩]) ⟨userId.getD ip, today, 1, userId⟩ h (hfind 1)
  rw [if_neg (by norm_num [maxFreeRecipes])] at st2
  rw [hmap 1 2] at st2
  have st3 := limiterStep_present userId ip today lookupUser
    (store ++ [⟨userId.getD ip, today, 2, userId⟩]) ⟨userId.getD ip, today, 2, userId⟩ h (hfind 2)
  rw [if_neg (by norm_num [maxFreeRecipes])] at st3
  rw [hmap 2 3] at st3
  have st4 := limiterStep_present userId ip today lookupUser
    (store ++ [⟨userId.getD ip, today, 3, userId⟩]) ⟨userId.getD ip, today, 3, userId⟩ h (hfind 3)
  rw [if_pos (by norm_num [maxFreeRecipes])] at st4
  exact ⟨_, _, _, st1, hread 1, st2, hread 2, st3, hread 3, st4, rfl, rfl, rfl⟩

/-- Witness for C1: an anonymous caller from a concrete IP on an empty
store. -/
theorem limiter_daily_quota_sequence_witness :
    ∃ s1 s2 s3 : UsageStore,
      limiterStep none "203.0.113.7" "2026-10-12"
        (fun _ => .error (.other "unused")) false [] = (.next, s1) ∧
      readUsage s1 ((none : Option String).getD "203.0.113.7") "2026-10-12" = .ok 1 ∧
      limiterStep none "203.0.113.7" "2026-10-12"
        (fun _ => .error (.other "unused")) false s1 = (.next, s2) ∧
      readUsage s2 ((none : Option String).getD "203.0.113.7") "2026-10-12" = .ok 2 ∧
      limiterStep none "203.0.113.7" "2026-10-12"
        (fun _ => .error (.other "unused")) false s2 = (.next, s3) ∧
      readUsage s3 ((none : Option String).getD "203.0.113.7") "2026-10-12" = .ok 3 ∧
      limiterStep none "203.0.113.7" "2026-10-12"
        (fun _ => .error (.other "unused")) false s3 =
        (.limitReached (limitReachedBody 3), s3) ∧
      (limitReachedBody 3).limit = 3 ∧ (limitReachedBody 3).current = 3 ∧
      (limitReachedBody 3).upgradeUrl = "/membership" :=
  limiter_daily_quota_sequence none "203.0.113.7" "2026-10-12"
    (fun _ => .error (.other "unused")) [] trivial rfl

/-- C3: when the `users`-row read returns subscription status `active`
and tier `premium`, the limiter admits the request with no store write,
for every possible usage-read oracle (so the usage record is neither read
nor written), the store-level step leaves any store unchanged, and the
limiter never answers with the 429 rejection. -/
theorem premium_bypass (uid ip today : String)
    (lookupUser : String → Except DbError SubscriptionRow) (u : SubscriptionRow)
    (hu : lookupUser uid = .ok u)
    (hs : u.subscription_status = "active")
    (ht : u.subscription_tier = "premium") :
    (∀ lookupUsage, recipeGenerationLimiter (some uid) ip today lookupUser lookupUsage =
      (.next, [])) ∧
    (∀ (failWrite : Bool) (store : UsageStore),
      limiterStep (some uid) ip today lookupUser failWrite store = (.next, store)) ∧
    (∀ lookupUsage b,
      (recipeGenerationLimiter (some uid) ip today lookupUser lookupUsage).1 ≠
        .limitReached b) := by
  have hmain : ∀ lookupUsage,
      recipeGenerationLimiter (some uid) ip today lookupUser lookupUsage = (.next, []) := by
    intro lookupUsage
    simp [recipeGenerationLimiter, hu, hs, ht]
  refine ⟨hmain, ?_, ?_⟩
  · intro failWrite store
    cases failWrite <;> simp [limiterStep, hmain]
  · intro lookupUsage b
    rw [hmain lookupUsage]
    simp

/-- Witness for C3: a concrete premium user. -/
theorem premium_bypass_witness :
    (∀ lookupUsage, recipeGenerationLimiter (some "user-1") "198.51.100.2" "2026-10-12"
      (fun _ => .ok ⟨"active", "premium"⟩) lookupUsage = (.next, [])) ∧
    (∀ (failWrite : Bool) (store : UsageStore),
      limiterStep (some "user-1") "198.51.100.2" "2026-10-12"
        (fun _ => .ok ⟨"active", "premium"⟩) failWrite store = (.next, store)) ∧
    (∀ lookupUsage b,
      (recipeGenerationLimiter (some "user-1") "198.51.100.2" "2026-10-12"
        (fun _ => .ok ⟨"active", "premium"⟩) lookupUsage).1 ≠ .limitReached b) :=
  premium_bypass "user-1" "198.51.100.2" "2026-10-12"
    (fun _ => .ok ⟨"active", "premium"⟩) ⟨"active", "premium"⟩ rfl rfl rfl

/-- C8: fail-closed on reads, swallowed failures on writes.  If the usage
read fails with any error other than `PGRST116`, the limiter answers the
generic 500 server error with no writes; the HTTP outcome of the
store-level step never depends on whether the increment write fails; and
when the write fails after an admit decision, the request still proceeds
while the store is left unchanged (permitting undercounting). -/
theorem limiter_failure_semantics (userId : Option String) (ip today : String)
    (lookupUser : String → Except DbError SubscriptionRow) :
    (∀ lookupUsage msg, NonPremiumCaller userId lookupUser →
      lookupUsage (userId.getD ip) today = .error (.other msg) →
      recipeGenerationLimiter userId ip today lookupUser lookupUsage = (.serverError, [])) ∧
    (∀ store : UsageStore,
      (limiterStep userId ip today lookupUser true store).1 =
      (limiterStep userId ip today lookupUser false store).1) ∧
    (∀ store : UsageStore,
      (limiterStep userId ip today lookupUser false store).1 = .next →
      limiterStep userId ip today lookupUser true store = (.next, store)) := by
  refine ⟨?_, ?_, ?_⟩
  · intro lookupUsage msg h he
    rw [recipeGenerationLimiter_free _ _ _ _ _ h, he]
  · intro store
    rfl
  · intro store hnext
    have htrue : limiterStep userId ip today lookupUser true store =
        ((limiterStep userId ip today lookupUser false store).1, store) := rfl
    rw [htrue, hnext]

/-- Witness for C8: a failing read oracle, and an empty store for the
write conjuncts. -/
theorem limiter_failure_semantics_witness :
    recipeGenerationLimiter none "203.0.113.7" "2026-10-12"
      (fun _ => .error (.other "unused"))
      (fun _ _ => .error (.other "connection reset")) = (.serverError, []) ∧
    (limiterStep none "203.0.113.7" "2026-10-12"
      (fun _ => .error (.other "unused")) true []).1 =
    (limiterStep none "203.0.113.7" "2026-10-12"
      (fun _ => .error (.other "unused")) false []).1 ∧
    limiterStep none "203.0.113.7" "2026-10-12"
      (fun _ => .error (.other "unused")) true [] = (.next, []) := by
  have h := limiter_failure_semantics none "203.0.113.7" "2026-10-12"
    (fun _ => .error (.other "unused"))
  exact ⟨h.1 _ "connection reset" trivial rfl, h.2.1 [], h.2.2 [] rfl⟩

theorem find?_map_set_count (identifier date : String) (n : Nat) (l : UsageStore) :
    ((l.map (fun x => if matchesKey identifier date x then { x with count := n } else x)).find?
      (matchesKey identifier date)) =
    (l.find? (matchesKey identifier date)).map (fun x => { x with count := n }) := by
  induction l with
  | nil => simp
  | cons a t ih =>
    cases hpa : matchesKey identifier date a
    · simp only [List.map_cons, List.find?_cons, hpa, Bool.false_eq_true, if_false, ih]
    · simp only [List.map_cons, List.find?_cons, hpa, if_true, matchesKey_set_count]
      rfl

/-- C10: because the limiter middleware runs before request-body
validation on `POST /api/recipe/generate-recipe`, a non-premium,
under-quota request whose body fails validation is answered with the 400
validation error while the day's stored usage count is still incremented
by one. -/
theorem invalid_body_consumes_quota (userId : Option String) (ip today : String)
    (lookupUser : String → Except DbError SubscriptionRow) (body : FormData)
    (store : UsageStore)
    (h : NonPremiumCaller userId lookupUser)
    (hv : recipeValidationPasses body = false)
    (hq : match store.find? (matchesKey (userId.getD ip) today) with
          | none => True
          | some r => r.count < 3) :
    (generateRecipeRoute userId ip today lookupUser body false store).1 = .validationError ∧
    readUsage (generateRecipeRoute userId ip today lookupUser body false store).2
      (userId.getD ip) today =
      .ok ((match store.find? (matchesKey (userId.getD ip) today) with
            | none => 0
            | some r => r.count) + 1) := by
  cases hf : store.find? (matchesKey (userId.getD ip) today) with
  | none =>
    have st := limiterStep_absent userId ip today lookupUser store h hf
    have hfind : ((store ++ [⟨userId.getD ip, today, 1, userId⟩] : UsageStore).find?
        (matchesKey (userId.getD ip) today)) = some ⟨userId.getD ip, today, 1, userId⟩ := by
      rw [find?_append_of_none _ _ _ hf]
      simp [matchesKey]
    refine ⟨?_, ?_⟩ <;> simp [generateRecipeRoute, st, hv, readUsage, hfind, hf]
  | some r =>
    rw [hf] at hq
    have st := limiterStep_present userId ip today lookupUser store r h hf
    rw [if_neg (by simp [maxFreeRecipes]; omega)] at st
    have hfind := find?_map_set_count (userId.getD ip) today (r.count + 1) store
    rw [hf] at hfind
    refine ⟨?_, ?_⟩ <;> simp [generateRecipeRoute, st, hv, readUsage, hfind, hf]

/-- Witness for C10: an anonymous caller with an empty store and a body
whose `ingredients` has fewer than 3 characters. -/
theorem invalid_body_consumes_quota_witness :
    (generateRecipeRoute none "203.0.113.7" "2026-10-12"
      (fun _ => .error (.other "unused"))
      ⟨"ab", none, none, none, none⟩ false []).1 = .validationError ∧
    readUsage (generateRecipeRoute none "203.0.113.7" "2026-10-12"
      (fun _ => .error (.other "unused"))
      ⟨"ab", none, none, none, none⟩ false []).2
      ((none : Option String).getD "203.0.113.7") "2026-10-12" =
      .ok ((match ([] : UsageStore).find?
              (matchesKey ((none : Option String).getD "203.0.113.7") "2026-10-12") with
            | none => 0
            | some r => r.count) + 1) :=
  invalid_body_consumes_quota none "203.0.113.7" "2026-10-12"
    (fun _ => .error (.other "unused")) ⟨"ab", none, none, none, none⟩ []
    trivial (by decide) trivial

/-- C5: applying a subscription-deleted event sets the user's
subscription status to `cancelled`, tier to `free` and subscription end
date to the processing time; and applying the same event twice — at the
handler level and at the table-level dispatch — leaves the same terminal
row state as applying it once. -/
theorem subscription_deleted_sets_and_idempotent (now : String) :
    (∀ row : UserRow,
      (handleSubscriptionDeleted now row).subscription_status = "cancelled" ∧
      (handleSubscriptionDeleted now row).subscription_tier = "free" ∧
      (handleSubscriptionDeleted now row).subscription_end_date = some now ∧
      handleSubscriptionDeleted now (handleSubscriptionDeleted now row) =
        handleSubscriptionDeleted now row) ∧
    (∀ (uid : String) (users : UsersTable),
      dispatchWebhookEvent (.customerSubscriptionDeleted uid) now
        (dispatchWebhookEvent (.customerSubscriptionDeleted uid) now users) =
      dispatchWebhookEvent (.customerSubscriptionDeleted uid) now users) := by
  constructor
  · intro row
    exact ⟨rfl, rfl, rfl, rfl⟩
  · intro uid users
    simp only [dispatchWebhookEvent, updateUser]
    rw [List.map_map]
    apply List.map_congr_left
    intro entry _
    cases hid : (entry.1 == uid) <;> simp [Function.comp, hid, handleSubscriptionDeleted]

/-- C7: once the signature verifies, the webhook endpoint acknowledges
with HTTP 200 (`received`) for every event kind — including unhandled
kinds, which are ignored, and when the internal user-row update fails
(handler errors are swallowed, leaving the table unchanged but not the
response); a request whose signature does not verify receives HTTP 400
and changes nothing. -/
theorem webhook_ack_semantics (event : StripeEvent) (handlerUpdateFails : Bool)
    (now : String) (users : UsersTable) :
    (webhookEndpoint true event handlerUpdateFails now users).1 = .received200 ∧
    (webhookEndpoint true event true now users).2 = users ∧
    (∀ s, webhookEndpoint true (.otherEvent s) handlerUpdateFails now users =
      (.received200, users)) ∧
    webhookEndpoint false event handlerUpdateFails now users = (.badRequest400, users) := by
  refine ⟨rfl, rfl, ?_, rfl⟩
  intro s
  cases handlerUpdateFails <;> simp [webhookEndpoint, dispatchWebhookEvent]

theorem cuisineEmoji_markerCount (cuisine : Option String) :
    markerCount (cuisineEmoji cuisine) = 1 := by
  unfold cuisineEmoji
  split <;> decide

theorem cuisineEmoji_hasMarker (cuisine : Option String) :
    hasCuisineMarker (cuisineEmoji cuisine) = true := by
  unfold cuisineEmoji
  split <;> decide

theorem hasCuisineMarker_append (a b : String) :
    hasCuisineMarker (a ++ b) = (hasCuisineMarker a || hasCuisineMarker b) := by
  simp [hasCuisineMarker, String.data_append, List.any_append]

theorem markerCount_append (a b : String) :
    markerCount (a ++ b) = markerCount a + markerCount b := by
  simp [markerCount, String.data_append, List.countP_append]

/-- Counterexample to C6: the backend `enhanceRecipe` marker step checks
only the `🍳` and `🍝` markers, so with cuisine `korean` it prepends `🍚`
and, run a second time on its own output, prepends `🍚` again (not
idempotent, and the output carries two markers); and the fallback
customizer's step leaves a name that already carries two markers of the
fixed set with two markers, not exactly one. -/
theorem cuisine_marker_claim_cex :
    enhanceRecipeMarkerStep (some "korean") "볶음밥" = "🍚 볶음밥" ∧
    enhanceRecipeMarkerStep (some "korean")
      (enhanceRecipeMarkerStep (some "korean") "볶음밥") = "🍚 🍚 볶음밥" ∧
    ("🍚 🍚 볶음밥" : String) ≠ "🍚 볶음밥" ∧
    addCuisineMarker (some "korean") "🍳🍝 파스타" = "🍳🍝 파스타" ∧
    markerCount "🍳🍝 파스타" = 2 := by
  refine ⟨?_, ?_, ?_, ?_, ?_⟩ <;> decide

/-- C6 (amended): the fallback customizer's marker step leaves a name
already carrying a marker of the fixed set unchanged, yields
`max 1 (input marker count)` marker occurrences — hence exactly one when
the input carries at most one — and is idempotent.  The backend
`enhanceRecipe` marker step does nothing without a cuisine, its presence
check tests only the `🍳` and `🍝` markers, and it is idempotent when the
emoji it would prepend is one of those two (for other cuisines repeated
application keeps prepending, as the counterexample shows). -/
theorem cuisine_marker_step_amended :
    (∀ (cuisine : Option String) (name : String),
      hasCuisineMarker name = true → addCuisineMarker cuisine name = name) ∧
    (∀ (cuisine : Option String) (name : String),
      markerCount (addCuisineMarker cuisine name) = max 1 (markerCount name)) ∧
    (∀ (cuisine : Option String) (name : String),
      addCuisineMarker cuisine (addCuisineMarker cuisine name) =
        addCuisineMarker cuisine name) ∧
    (∀ name : String, enhanceRecipeMarkerStep none name = name) ∧
    (∀ (c name : String),
      enhanceCuisineEmoji c = "🍳" ∨ enhanceCuisineEmoji c = "🍝" →
      enhanceRecipeMarkerStep (some c) (enhanceRecipeMarkerStep (some c) name) =
        enhanceRecipeMarkerStep (some c) name) := by
  refine ⟨?_, ?_, ?_, ?_, ?_⟩
  · intro cuisine name h
    simp [addCuisineMarker, h]
  · intro cuisine name
    cases h : hasCuisineMarker name
    · have h0 : markerCount name = 0 := by
        simp only [hasCuisineMarker, List.any_eq_false] at h
        exact List.countP_eq_zero.mpr h
      have hstep : addCuisineMarker cuisine name = cuisineEmoji cuisine ++ " " ++ name := by
        simp [addCuisineMarker, h]
      rw [hstep, markerCount_append, markerCount_append, cuisineEmoji_markerCount, h0]
      decide
    · have h1 : 1 ≤ markerCount name := by
        simp only [hasCuisineMarker, List.any_eq_true] at h
        have h2 := List.countP_pos_iff.mpr h
        simpa [markerCount] using h2
      have hstep : addCuisineMarker cuisine name = name := by
        simp [addCuisineMarker, h]
      rw [hstep]
      omega
  · intro cuisine name
    cases h : hasCuisineMarker name
    · have hstep : addCuisineMarker cuisine name = cuisineEmoji cuisine ++ " " ++ name := by
        simp [addCuisineMarker, h]
      rw [hstep]
      have hmark : hasCuisineMarker (cuisineEmoji cuisine ++ " " ++ name) = true := by
        simp [hasCuisineMarker_append, cuisineEmoji_hasMarker]
      simp [addCuisineMarker, hmark]
    · simp [addCuisineMarker, h]
  · intro name
    rfl
  · intro c name hc
    have hstep : ∀ m : String, enhanceRecipeMarkerStep (some c) m =
        if (!(m.data.contains '🍳') && !(m.data.contains '🍝')) then
          enhanceCuisineEmoji c ++ " " ++ m
        else m := fun _ => rfl
    cases hk : (!(name.data.contains '🍳') && !(name.data.contains '🍝'))
    · rw [hstep name, if_neg (by rw [hk]; decide), hstep name, if_neg (by rw [hk]; decide)]
    · rw [hstep name, if_pos hk]
      rcases hc with hc | hc <;> rw [hc]
      · have hdata : (("🍳" ++ " " ++ name)).data = '🍳' :: ' ' :: name.data := by
          rw [String.data_append]
          rfl
        rw [hstep ("🍳" ++ " " ++ name), if_neg (by simp [hdata])]
      · have hdata : (("🍝" ++ " " ++ name)).data = '🍝' :: ' ' :: name.data := by
          rw [String.data_append]
          rfl
        rw [hstep ("🍝" ++ " " ++ name), if_neg (by simp [hdata])]

/-- Witness for C6 (amended): concrete names through both marker steps. -/
theorem cuisine_marker_step_amended_witness :
    addCuisineMarker (some "korean") "🍜 볶음면" = "🍜 볶음면" ∧
    markerCount (addCuisineMarker none "볶음면") = max 1 (markerCount "볶음면") ∧
    addCuisineMarker none (addCuisineMarker none "볶음면") = addCuisineMarker none "볶음면" ∧
    enhanceRecipeMarkerStep none "볶음면" = "볶음면" ∧
    enhanceRecipeMarkerStep (some "italian")
      (enhanceRecipeMarkerStep (some "italian") "파스타") =
      enhanceRecipeMarkerStep (some "italian") "파스타" := by
  have h := cuisine_marker_step_amended
  exact ⟨h.1 (some "korean") "🍜 볶음면" (by decide), h.2.1 none "볶음면",
    h.2.2.1 none "볶음면", h.2.2.2.1 "볶음면",
    h.2.2.2.2 "italian" "파스타" (Or.inr rfl)⟩

theorem addUserIngredients_decomp (us : List String) :
    ∀ base, addUserIngredients base us = base ++ userAdditions base us := by
  induction us with
  | nil => intro base; simp [addUserIngredients, userAdditions]
  | cons u rest ih =>
    intro base
    have hone : addUserIngredients base (u :: rest) =
        addUserIngredients
          (if !isAlreadyIncluded base u && u.length > 2 then base ++ [u ++ " 적당량"] else base)
          rest := rfl
    cases hcond : (!isAlreadyIncluded base u && u.length > 2)
    · rw [hone, if_neg (by rw [hcond]; decide), ih base]
      have : userAdditions base (u :: rest) = userAdditions base rest := by
        simp only [userAdditions]
        rw [if_neg (by rw [hcond]; decide)]
      rw [this]
    · rw [hone, if_pos hcond, ih (base ++ [u ++ " 적당량"])]
      have : userAdditions base (u :: rest) =
          (u ++ " 적당량") :: userAdditions (base ++ [u ++ " 적당량"]) rest := by
        simp only [userAdditions]
        rw [if_pos hcond]
      rw [this, List.append_assoc]
      rfl

theorem userAdditions_tagged (us : List String) :
    ∀ (w : List String) (e : String), e ∈ userAdditions w us →
      ∃ t, t ∈ us ∧ 2 < t.length ∧ e = t ++ " 적당량" := by
  induction us with
  | nil => intro w e he; simp [userAdditions] at he
  | cons u rest ih =>
    intro w e he
    cases hcond : (!isAlreadyIncluded w u && u.length > 2)
    · have : userAdditions w (u :: rest) = userAdditions w rest := by
        simp only [userAdditions]
        rw [if_neg (by rw [hcond]; decide)]
      rw [this] at he
      obtain ⟨t, ht, hl, he⟩ := ih w e he
      exact ⟨t, List.mem_cons_of_mem u ht, hl, he⟩
    · have : userAdditions w (u :: rest) =
          (u ++ " 적당량") :: userAdditions (w ++ [u ++ " 적당량"]) rest := by
        simp only [userAdditions]
        rw [if_pos hcond]
      rw [this] at he
      rcases List.mem_cons.mp he with he | he
      · refine ⟨u, List.mem_cons_self u rest, ?_, he⟩
        have := (Bool.and_eq_true _ _).mp hcond
        exact of_decide_eq_true this.2
      · obtain ⟨t, ht, hl, he⟩ := ih (w ++ [u ++ " 적당량"]) e he
        exact ⟨t, List.mem_cons_of_mem u ht, hl, he⟩

/-- Counterexample to C9: the already-included check runs against the
growing working list, so the token `chick` — longer than 2 characters and
not substring-matched against the recipe's own ingredient list `["밥"]` —
is skipped because the entry appended for the earlier token `chicken`
matches it. -/
theorem user_ingredient_append_cex :
    isAlreadyIncluded ["밥"] "chick" = false ∧
    2 < ("chick" : String).length ∧
    addUserIngredients ["밥"] ["chicken", "chick"] = ["밥", "chicken 적당량"] ∧
    ("chick 적당량") ∉ addUserIngredients ["밥"] ["chicken", "chick"] := by
  refine ⟨?_, ?_, ?_, ?_⟩ <;> decide

/-- C9 (amended): the customizer's user-ingredient loop keeps the
pre-existing entries unchanged, in order, as a prefix, and appends after
them exactly the additions described by `userAdditions`: walking the
tokens in order while carrying the working list (original entries plus
earlier additions), each token of length at least 3 that the working list
does not already include contributes the single entry `<token> 적당량`;
shorter or already-included tokens contribute nothing — in particular
every appended entry is a tagged token of length at least 3 from the
user's list. -/
theorem user_ingredient_append_amended :
    (∀ base us : List String, addUserIngredients base us = base ++ userAdditions base us) ∧
    (∀ (w us : List String) (e : String), e ∈ userAdditions w us →
      ∃ t, t ∈ us ∧ 2 < t.length ∧ e = t ++ " 적당량") :=
  ⟨fun base us => addUserIngredients_decomp us base,
   fun w us e he => userAdditions_tagged us w e he⟩

/-- Witness for C9 (amended): concrete base list and tokens. -/
theorem user_ingredient_append_amended_witness :
    addUserIngredients ["밥"] ["chicken"] = ["밥"] ++ userAdditions ["밥"] ["chicken"] ∧
    ∃ t, t ∈ ["chicken"] ∧ 2 < t.length ∧ ("chicken 적당량" : String) = t ++ " 적당량" := by
  have h := user_ingredient_append_amended
  exact ⟨h.1 ["밥"] ["chicken"], h.2 ["밥"] ["chicken"] "chicken 적당량" (by decide)⟩

theorem listStartsWith_iff (pat : List Char) : ∀ s,
    listStartsWith pat s = true ↔ ∃ t, s = pat ++ t := by
  induction pat with
  | nil =>
    intro s
    simp [listStartsWith]
  | cons p ps ih =>
    intro s
    cases s with
    | nil => simp [listStartsWith]
    | cons c cs =>
      simp only [listStartsWith, Bool.and_eq_true, beq_iff_eq, ih cs, List.cons_append]
      constructor
      · rintro ⟨hpc, t, ht⟩
        exact ⟨t, by rw [ht, hpc]⟩
      · rintro ⟨t, ht⟩
        injection ht with h1 h2
        exact ⟨h1.symm, t, h2⟩

theorem replaceFirstList_not_found (pat rep : List Char) :
    ∀ s, hasSubList pat s = false → replaceFirstList pat rep s = s := by
  intro s
  induction s with
  | nil =>
    intro h
    simp only [hasSubList] at h
    simp [replaceFirstList, h]
  | cons c cs ih =>
    intro h
    simp only [hasSubList, Bool.or_eq_false_iff] at h
    simp only [replaceFirstList]
    rw [if_neg (by rw [h.1]; decide)]
    rw [ih h.2]

theorem replaceFirstList_found (pat rep : List Char) :
    ∀ s, hasSubList pat s = true →
      ∃ pre post : List Char, s = pre ++ pat ++ post ∧
        replaceFirstList pat rep s = pre ++ rep ++ post ∧
        ∀ pre' post', s = pre' ++ pat ++ post' → pre.length ≤ pre'.length := by
  intro s
  induction s with
  | nil =>
    intro h
    simp only [hasSubList, List.isEmpty_iff] at h
    refine ⟨[], [], by simp [h], ?_, ?_⟩
    · simp [replaceFirstList, h]
    · intro pre' post' _
      simp
  | cons c cs ih =>
    intro h
    cases hst : listStartsWith pat (c :: cs)
    · have hrest : hasSubList pat cs = true := by
        simp only [hasSubList, hst, Bool.false_or] at h
        exact h
      obtain ⟨pre, post, hs, hr, hmin⟩ := ih hrest
      refine ⟨c :: pre, post, by simp [hs], ?_, ?_⟩
      · simp only [replaceFirstList]
        rw [if_neg (by rw [hst]; decide), hr]
        simp
      · intro pre' post' hs'
        cases pre' with
        | nil =>
          exfalso
          have hsw : listStartsWith pat (c :: cs) = true :=
            (listStartsWith_iff pat (c :: cs)).mpr ⟨post', by simpa using hs'⟩
          rw [hst] at hsw
          exact absurd hsw (by decide)
        | cons c' pre'' =>
          have hcs : cs = pre'' ++ pat ++ post' := by
            have h2 : c :: cs = c' :: (pre'' ++ pat ++ post') := by simpa using hs'
            injection h2 with _ h3
          have := hmin pre'' post' hcs
          simp only [List.length_cons]
          omega
    · obtain ⟨t, ht⟩ := (listStartsWith_iff pat (c :: cs)).mp hst
      refine ⟨[], t, by simpa using ht, ?_, ?_⟩
      · simp only [replaceFirstList]
        rw [if_pos hst, ht, List.drop_left]
        simp
      · intro pre' post' _
        simp

theorem jsReplaceFirst_spec (s pat rep : String) :
    (jsIncludes s pat = false → jsReplaceFirst s pat rep = s) ∧
    (jsIncludes s pat = true →
      ∃ pre post : List Char, s.data = pre ++ pat.data ++ post ∧
        (jsReplaceFirst s pat rep).data = pre ++ rep.data ++ post ∧
        ∀ pre' post', s.data = pre' ++ pat.data ++ post' → pre.length ≤ pre'.length) := by
  constructor
  · intro h
    have := replaceFirstList_not_found pat.data rep.data s.data h
    cases s
    exact congrArg String.mk this
  · intro h
    exact replaceFirstList_found pat.data rep.data s.data h

theorem foldl_map_swap (g : ReplacePair → String → String) :
    ∀ (pairs : List ReplacePair) (ings : List String),
      pairs.foldl (fun is pair => is.map (g pair)) ings =
        ings.map (fun ing => pairs.foldl (fun str pair => g pair str) ing) := by
  intro pairs
  induction pairs with
  | nil =>
    intro ings
    simp
  | cons p ps ih =>
    intro ings
    simp only [List.foldl_cons]
    rw [ih (ings.map (g p)), List.map_map]
    rfl

/-- Counterexample to C4: with dietary `keto` on a recipe whose ingredient
entry contains the `from` term `설탕` twice, `applyDietaryRestrictions`
replaces only the first occurrence (an occurrence survives in its
output); moreover the customization pipeline's final ingredient list is
the user-augmented copy of the *original* list — the dietary-substituted
list is discarded by the final override — so the pipeline output still
carries the untouched entry while the title does get the restriction
suffix. -/
theorem dietary_replacement_cex :
    (applyDietaryRestrictions
      ⟨"설탕과자", "", "", "", "", "", "easy", ["설탕 설탕"], [], [], none⟩
      "keto").ingredients = ["스테비아 설탕"] ∧
    jsIncludes "스테비아 설탕" "설탕" = true ∧
    (customizeRecipe
      ⟨"설탕과자", "", "", "", "", "", "easy", ["설탕 설탕"], [], [], none⟩
      ⟨"", none, none, some "keto", none⟩ []).ingredients = ["설탕 설탕"] ∧
    (customizeRecipe
      ⟨"설탕과자", "", "", "", "", "", "easy", ["설탕 설탕"], [], [], none⟩
      ⟨"", none, none, some "keto", none⟩ []).name = "🍳 설탕과자 (keto)" := by
  refine ⟨?_, ?_, ?_, ?_⟩ <;> decide

/-- C4 (amended): `applyDietaryRestrictions` transforms each ingredient
entry independently, applying the restriction's pairs in table order,
each replacing only the first (leftmost) occurrence of its `from` term
within the entry and leaving entries without an occurrence unchanged; the
restriction name is appended to the title in parentheses; dietary values
outside the fixed table leave the recipe unchanged.  However the
customization pipeline's final ingredient list is always the
user-augmented copy of the original list — the dietary-substituted list
is discarded by the pipeline's final override, so only the title change
survives in the pipeline output. -/
theorem dietary_replacement_amended :
    (∀ (r : Recipe) (d : String), dietaryRestrictionTable d = none →
      applyDietaryRestrictions r d = r) ∧
    (∀ (r : Recipe) (d : String) (rt : DietRestriction),
      dietaryRestrictionTable d = some rt →
      (applyDietaryRestrictions r d).name = r.name ++ " (" ++ d ++ ")" ∧
      (applyDietaryRestrictions r d).ingredients =
        r.ingredients.map (fun ing => rt.replace.foldl
          (fun str pair =>
            if jsIncludes str pair.«from» then jsReplaceFirst str pair.«from» pair.«to»
            else str) ing)) ∧
    (∀ (r : Recipe) (form : FormData) (ui : List String),
      (customizeRecipe r form ui).ingredients = addUserIngredients r.ingredients ui) ∧
    (∀ s pat rep : String,
      (jsIncludes s pat = false → jsReplaceFirst s pat rep = s) ∧
      (jsIncludes s pat = true →
        ∃ pre post : List Char, s.data = pre ++ pat.data ++ post ∧
          (jsReplaceFirst s pat rep).data = pre ++ rep.data ++ post ∧
          ∀ pre' post', s.data = pre' ++ pat.data ++ post' → pre.length ≤ pre'.length)) := by
  refine ⟨?_, ?_, ?_, ?_⟩
  · intro r d hd
    simp [applyDietaryRestrictions, hd]
  · intro r d rt h
    constructor
    · simp [applyDietaryRestrictions, h]
    · simp only [applyDietaryRestrictions, h]
      exact foldl_map_swap _ rt.replace r.ingredients
  · intro r form ui
    rfl
  · intro s pat rep
    exact jsReplaceFirst_spec s pat rep

/-- Witness for C4 (amended): concrete recipes through the unknown-value,
vegan, pipeline-override and first-occurrence conjuncts. -/
theorem dietary_replacement_amended_witness :
    applyDietaryRestrictions
      ⟨"샐러드", "", "", "", "", "", "easy", ["양상추 1통"], [], [], none⟩ "low-carb" =
      ⟨"샐러드", "", "", "", "", "", "easy", ["양상추 1통"], [], [], none⟩ ∧
    ((applyDietaryRestrictions
      ⟨"팬케이크", "", "", "", "", "", "easy", ["우유 1컵", "버터 10g"], [], [], none⟩
      "vegan").name = "팬케이크" ++ " (" ++ "vegan" ++ ")" ∧
    (applyDietaryRestrictions
      ⟨"팬케이크", "", "", "", "", "", "easy", ["우유 1컵", "버터 10g"], [], [], none⟩
      "vegan").ingredients =
      (["우유 1컵", "버터 10g"] : List String).map (fun ing =>
        (DietRestriction.mk
          [⟨"달걀", "아쿠아파바"⟩, ⟨"우유", "두유"⟩, ⟨"버터", "올리브오일"⟩, ⟨"치즈", "영양효모"⟩]
          ["고기", "생선", "달걀", "유제품"]).replace.foldl
          (fun str pair =>
            if jsIncludes str pair.«from» then jsReplaceFirst str pair.«from» pair.«to»
            else str) ing)) ∧
    (customizeRecipe kimchiFriedRice ⟨"", none, none, none, none⟩ []).ingredients =
      addUserIngredients kimchiFriedRice.ingredients [] ∧
    ∃ pre post : List Char,
      ("설탕 설탕" : String).data = pre ++ ("설탕" : String).data ++ post ∧
      (jsReplaceFirst "설탕 설탕" "설탕" "스테비아").data = pre ++ ("스테비아" : String).data ++ post ∧
      ∀ pre' post', ("설탕 설탕" : String).data = pre' ++ ("설탕" : String).data ++ post' →
        pre.length ≤ pre'.length := by
  have h := dietary_replacement_amended
  exact ⟨h.1 _ "low-carb" rfl,
    h.2.1 ⟨"팬케이크", "", "", "", "", "", "easy", ["우유 1컵", "버터 10g"], [], [], none⟩
      "vegan" _ rfl,
    h.2.2.1 kimchiFriedRice ⟨"", none, none, none, none⟩ [],
    (h.2.2.2 "설탕 설탕" "설탕" "스테비아").2 (by decide)⟩

theorem bestFold_spec (ui : List String) :
    ∀ (l : List Recipe) (b₀ : Recipe) (s₀ : Nat) (out : Recipe × Nat),
      l.foldl (fun acc recipe =>
        let score := scoreRecipe ui recipe
        if score > acc.2 then (recipe, score) else acc) (b₀, s₀) = out →
      s₀ ≤ out.2 ∧ (∀ x ∈ l, scoreRecipe ui x ≤ out.2) ∧
      (out = (b₀, s₀) ∨
        ∃ l₁ l₂, l = l₁ ++ out.1 :: l₂ ∧ scoreRecipe ui out.1 = out.2 ∧
          s₀ < out.2 ∧ ∀ x ∈ l₁, scoreRecipe ui x < out.2) := by
  intro l
  induction l with
  | nil =>
    intro b₀ s₀ out hout
    simp only [List.foldl_nil] at hout
    subst hout
    exact ⟨le_refl _, by simp, Or.inl rfl⟩
  | cons a t ih =>
    intro b₀ s₀ out hout
    rw [List.foldl_cons] at hout
    by_cases hgt : scoreRecipe ui a > s₀
    · obtain ⟨ih1, ih2, ih3⟩ := ih a (scoreRecipe ui a) out (by simpa [hgt] using hout)
      refine ⟨by omega, ?_, ?_⟩
      · intro x hx
        rcases List.mem_cons.mp hx with hx | hx
        · subst hx; omega
        · exact ih2 x hx
      · rcases ih3 with heq | ⟨t₁, t₂, hdec, hsc, hlt, hall⟩
        · refine Or.inr ⟨[], t, by simp [heq], ?_, ?_, by simp⟩
          · rw [heq]
          · rw [heq]; exact hgt
        · refine Or.inr ⟨a :: t₁, t₂, by simp [hdec], hsc, by omega, ?_⟩
          intro x hx
          rcases List.mem_cons.mp hx with hx | hx
          · subst hx; omega
          · exact hall x hx
    · obtain ⟨ih1, ih2, ih3⟩ := ih b₀ s₀ out (by simpa [hgt] using hout)
      refine ⟨ih1, ?_, ?_⟩
      · intro x hx
        rcases List.mem_cons.mp hx with hx | hx
        · subst hx; omega
        · exact ih2 x hx
      · rcases ih3 with heq | ⟨t₁, t₂, hdec, hsc, hlt, hall⟩
        · exact Or.inl heq
        · refine Or.inr ⟨a :: t₁, t₂, by simp [hdec], hsc, hlt, ?_⟩
          intro x hx
          rcases List.mem_cons.mp hx with hx | hx
          · subst hx; omega
          · exact hall x hx

/-- C2 (amended): for every non-empty token list, the fallback matcher
returns a template (never `none`) drawn from the pool it actually
searches — the `korean`, `italian`, `asian` and `default` categories; the
`mexican` category is excluded — whose score is maximal over that pool,
with ties broken by first-encountered order (every template strictly
before the winner scores strictly less), and when every searched template
scores zero the pool's first template (김치볶음밥) is returned. -/
theorem matcher_best_over_searched (ui : List String) (_hne : ui ≠ []) :
    ∃ (r : Recipe) (l₁ l₂ : List Recipe),
      findBestMatchingRecipe ui recipeTemplates = some r ∧
      allRecipes recipeTemplates = l₁ ++ r :: l₂ ∧
      (∀ x ∈ allRecipes recipeTemplates, scoreRecipe ui x ≤ scoreRecipe ui r) ∧
      (∀ x ∈ l₁, scoreRecipe ui x < scoreRecipe ui r) ∧
      ((∀ x ∈ allRecipes recipeTemplates, scoreRecipe ui x = 0) → r = kimchiFriedRice) := by
  obtain ⟨out, hout⟩ : ∃ out, (allRecipes recipeTemplates).foldl (fun acc recipe =>
      let score := scoreRecipe ui recipe
      if score > acc.2 then (recipe, score) else acc) (kimchiFriedRice, 0) = out := ⟨_, rfl⟩
  have hfind : findBestMatchingRecipe ui recipeTemplates = some out.1 := by
    rw [← hout]
    rfl
  obtain ⟨-, hmax, hdisj⟩ :=
    bestFold_spec ui (allRecipes recipeTemplates) kimchiFriedRice 0 out hout
  rcases hdisj with heq | ⟨l₁, l₂, hdec, hsc, hpos, hstrict⟩
  · have hk0 : scoreRecipe ui kimchiFriedRice = 0 := by
      have hin : kimchiFriedRice ∈ allRecipes recipeTemplates := by
        exact List.mem_cons_self _ _
      have := hmax kimchiFriedRice hin
      rw [heq] at this
      omega
    refine ⟨out.1, [], (allRecipes recipeTemplates).tail, hfind, ?_, ?_, by simp, ?_⟩
    · rw [heq]
      rfl
    · intro x hx
      have hb := hmax x hx
      rw [heq] at hb ⊢
      omega
    · intro _
      rw [heq]
  · refine ⟨out.1, l₁, l₂, hfind, hdec, ?_, ?_, ?_⟩
    · intro x hx
      have := hmax x hx
      omega
    · intro x hx
      have := hstrict x hx
      omega
    · intro hzero
      exfalso
      have hmem : out.1 ∈ allRecipes recipeTemplates := by
        rw [hdec]
        exact List.mem_append_right _ (List.mem_cons_self _ _)
      have := hzero out.1 hmem
      omega

/-- Counterexample to C2: the token `토르티야` occurs only in the
`mexican` template 치킨 부리또, which the matcher never searches (the
source spreads only `korean`, `italian`, `asian` and `default`), so the
matcher returns the zero-scoring pool head 김치볶음밥 even though a
catalog template achieves score 1. -/
theorem matcher_skips_mexican_cex :
    findBestMatchingRecipe ["토르티야"] recipeTemplates = some kimchiFriedRice ∧
    scoreRecipe ["토르티야"] kimchiFriedRice = 0 ∧
    chickenBurrito ∈ recipeTemplates.mexican ∧
    scoreRecipe ["토르티야"] chickenBurrito = 1 := by
  refine ⟨?_, ?_, ?_, ?_⟩ <;> decide

/-- Witness for C2 (amended): a concrete single-token ingredient list. -/
theorem matcher_best_over_searched_witness :
    ∃ (r : Recipe) (l₁ l₂ : List Recipe),
      findBestMatchingRecipe ["김치"] recipeTemplates = some r ∧
      allRecipes recipeTemplates = l₁ ++ r :: l₂ ∧
      (∀ x ∈ allRecipes recipeTemplates, scoreRecipe ["김치"] x ≤ scoreRecipe ["김치"] r) ∧
      (∀ x ∈ l₁, scoreRecipe ["김치"] x < scoreRecipe ["김치"] r) ∧
      ((∀ x ∈ allRecipes recipeTemplates, scoreRecipe ["김치"] x = 0) → r = kimchiFriedRice) :=
  matcher_best_over_searched ["김치"] (by decide)
